import Mathlib

/-!
Shallow embedding of the bsky_thread_and_blog_feed repository
(src/lib.rs, src/models.rs, src/db.rs, src/bin/feed.rs) and proofs about
its specification claims.

The three regular expressions of src/lib.rs (`PROGRAMMER_JARGON`,
`BLOG_JARGON`, `DO_NOT_POST`) are case-insensitive alternations of
literal words wrapped in word boundaries, of the shape
`(?i)\b(w1|w2|...)\b`; the only non-literal pieces are the optional
whitespace in `rp\s?2040` / `rp\s?2350`.  They are embedded below as
lists of atom sequences together with an executable matcher implementing
the word-boundary semantics (`\b` holds between a word character and a
non-word character, with positions outside the string counting as
non-word).  Word characters are modelled as ASCII alphanumerics plus
underscore; the Rust regex crate's Unicode `\w` coincides with this on
the ASCII strings all concrete claims use.

The profanity detector (`rustrict::CensorStr::is_inappropriate`) is an
external crate, not code of this repository, so the classifier is
parametrised by an arbitrary detector `censor : String → Bool`.

SQLite statements are embedded as pure transformations of a `DbState`
(list of post rows plus list of like rows).  The connection never issues
`PRAGMA foreign_keys = ON`, and SQLite leaves foreign-key enforcement
(hence `ON DELETE CASCADE`) disabled by default, so the embedding of
`DELETE FROM posts WHERE uri = ?1` removes post rows only.
-/

/-- One atom of a literal-word pattern: the set of characters it can match
and whether it may be skipped (used for the `\s?` in `rp\s?2040`). -/
structure Atom where
  chars : List Char
  skippable : Bool
deriving DecidableEq

/-- A literal character atom. -/
def lit (c : Char) : Atom := ⟨[c], false⟩

/-- A literal string as a sequence of atoms (patterns are written in
lowercase; matching lowercases its input, modelling `(?i)`). -/
def litPat (s : String) : List Atom := s.toList.map lit

/-- Optional whitespace, the regex `\s?` (Rust regex `\s` is
`[ \t\n\x0b\x0c\r]`). -/
def wsOpt : Atom := ⟨[' ', '\t', '\n', '\x0b', '\x0c', '\r'], true⟩

/-- All possible remainders of `cs` after the atom sequence matched a
prefix of `cs`. -/
def matchAtoms : List Atom → List Char → List (List Char)
  | [], cs => [cs]
  | a :: as, cs =>
    let hit : List (List Char) :=
      match cs with
      | [] => []
      | c :: rest => if a.chars.contains c then matchAtoms as rest else []
    if a.skippable then hit ++ matchAtoms as cs else hit

/-- Regex word character, ASCII fragment of `\w`. -/
def isWordChar (c : Char) : Bool := c.isAlphanum || c = '_'

/-- Word-ness of an optional character; positions outside the string are
non-word. -/
def wordness : Option Char → Bool
  | none => false
  | some c => isWordChar c

/-- The `\b` assertion between two adjacent positions. -/
def isBoundary (l r : Option Char) : Bool := wordness l != wordness r

/-- Does some alternative of `pats` match at the current position, with a
word boundary on both sides?  `prev` is the character just before the
current position. -/
def matchHere (pats : List (List Atom)) (prev : Option Char) (cs : List Char) : Bool :=
  pats.any fun pat =>
    (matchAtoms pat cs).any fun rem =>
      let consumed := cs.take (cs.length - rem.length)
      isBoundary prev (consumed.head?.orElse fun _ => rem.head?) &&
        isBoundary (consumed.getLast?.orElse fun _ => prev) rem.head?

/-- Scan every position of the string for a bounded match. -/
def scanMatch (pats : List (List Atom)) : Option Char → List Char → Bool
  | prev, [] => matchHere pats prev []
  | prev, c :: cs => matchHere pats prev (c :: cs) || scanMatch pats (some c) cs

/-- `Regex::is_match` for a case-insensitive word-bounded alternation of
the given patterns. -/
def isMatch (pats : List (List Atom)) (s : String) : Bool :=
  scanMatch pats none (s.toList.map Char.toLower)

/-- The `PROGRAMMER_JARGON` regex of src/lib.rs, lowercased alternatives. -/
def PROGRAMMER_JARGON : List (List Atom) :=
  [litPat "rust", litPat "c++", litPat "cpp", litPat "js", litPat "c#",
   litPat "swift", litPat "dotnet", litPat "php", litPat "python",
   litPat "javascript", litPat "rustlang", litPat "embedded dev",
   litPat "microcontroller", litPat "iot", litPat "arduino",
   litPat "raspberrypi", litPat "programming", litPat "software developer",
   litPat "software developers", litPat "dev", litPat "hardware",
   litPat "compiler", litPat "opensource", litPat "github", litPat "linux",
   litPat "kernel", litPat "rtos", litPat "esp32", litPat "pico",
   litPat "rp" ++ [wsOpt] ++ litPat "2040",
   litPat "rp" ++ [wsOpt] ++ litPat "2350",
   litPat "micropython", litPat "vs code", litPat "jetbrains", litPat "spi",
   litPat "i2c", litPat "soldering", litPat "waveshare", litPat "maker",
   litPat "adafruit"]

/-- The `BLOG_JARGON` regex of src/lib.rs. -/
def BLOG_JARGON : List (List Atom) :=
  [litPat "blog", litPat "post", litPat "article", litPat "thread",
   litPat "write-up", litPat "guide", litPat "tutorial", litPat "how-to",
   litPat "explainer", litPat "deep dive", litPat "🧵", litPat "working",
   litPat "threads", litPat "project"]

/-- The `DO_NOT_POST` regex of src/lib.rs. -/
def DO_NOT_POST : List (List Atom) :=
  [litPat "musk", litPat "elon", litPat "trump", litPat "united states",
   litPat "flordia", litPat "texas", litPat "doge", litPat "government",
   litPat "president", litPat "potus", litPat "maga", litPat "vance"]

/-- src/models.rs `TextInPost`: one tagged text fragment of a post. -/
inductive TextInPost where
  | Post (s : String)
  | Picture (s : String)
  | Video (s : String)
  | External (s : String)
deriving DecidableEq

/-- src/models.rs `TextInPost::to_string`. -/
def TextInPost.toString : TextInPost → String
  | .Post v => v
  | .Picture v => v
  | .Video v => v
  | .External v => v

/-- src/models.rs `PostScoring`. -/
structure PostScoring where
  pinned : Bool
  deleted : Bool
  priority : Int
deriving DecidableEq

/-- Topic weight per fragment variant, from the match arms of
`does_the_post_belong_to_the_feed` (src/lib.rs lines 59-103). -/
def progWeight : TextInPost → Int
  | .Post _ => 10
  | .Picture _ => 15
  | .Video _ => 15
  | .External _ => 15

/-- Narrative-form weight per fragment variant, from the same match arms. -/
def blogWeight : TextInPost → Int
  | .Post _ => 30
  | .Picture _ => 30
  | .Video _ => 15
  | .External _ => 30

/-- Whether a fragment's text matches `PROGRAMMER_JARGON`. -/
def fragProg (t : TextInPost) : Bool := isMatch PROGRAMMER_JARGON t.toString

/-- Whether a fragment's text matches `BLOG_JARGON`. -/
def fragBlog (t : TextInPost) : Bool := isMatch BLOG_JARGON t.toString

/-- Whether a fragment's text matches `DO_NOT_POST`. -/
def fragDeny (t : TextInPost) : Bool := isMatch DO_NOT_POST t.toString

/-- The loop body of `does_the_post_belong_to_the_feed` (src/lib.rs
lines 42-115), with the mutable locals
`contains_identifier_its_a_blog_or_thread`, `should_be_saved`,
`fits_topic` and `scoring` passed as parameters.  The `info!` diagnostic
log on a censored topic-matching fragment is a side effect only and is
not modelled; the dead local `post_text` is omitted.  `censor` stands for
`rustrict`'s `is_inappropriate`. -/
def classifyGo (censor : String → Bool) :
    List TextInPost → Bool → Bool → Bool → Int → Option PostScoring
  | [], _, _, _, _ => none
  | text :: rest, blogId, saved, topic, score =>
    if censor text.toString then none
    else if fragDeny text then none
    else
      let topic1 := topic || fragProg text
      let score1 := if fragProg text then score + progWeight text else score
      let blogId1 := blogId || fragBlog text
      let saved1 := saved || fragBlog text
      let score2 := if fragBlog text then score1 + blogWeight text else score1
      if topic1 && saved1 then some ⟨false, false, score2⟩
      else classifyGo censor rest blogId1 saved1 topic1 score2

/-- src/lib.rs `does_the_post_belong_to_the_feed`, parametrised by the
external profanity detector. -/
def does_the_post_belong_to_the_feed (censor : String → Bool)
    (all_text_in_post : List TextInPost) : Option PostScoring :=
  classifyGo censor all_text_in_post false false false 0

/-- A row of the `posts` table (src/db.rs `initialize_db`); `uri` is the
primary key. -/
structure DbPost where
  uri : String
  text : String
  pinned : Bool
  deleted : Bool
  priority : Int
  timestamp : Int
deriving DecidableEq

/-- The database: the `posts` table and the `likes` table (rows in
insertion order, which is SQLite's scan order for these queries). -/
structure DbState where
  posts : List DbPost
  likes : List (String × String)
deriving DecidableEq

/-- Stable insertion sort by `timestamp` descending, the deterministic
order produced by `ORDER BY timestamp DESC` on a fixed table. -/
def sortByTimestampDesc (l : List DbPost) : List DbPost :=
  List.insertionSort (fun a b => b.timestamp ≤ a.timestamp) l

/-- src/db.rs `load_feed_from_db`: `SELECT ... FROM posts WHERE
posts.deleted = 0 GROUP BY <all selected columns> ORDER BY timestamp DESC
LIMIT ?1 OFFSET ?2`.  The `GROUP BY` lists every selected column and
`uri` is the primary key, so every group is a single row and the clause
is a no-op; it is omitted here.  `limit` and `offset` are bound as `u64`
SQL parameters; rusqlite converts a `u64` to SQLite's signed 64-bit
integer fallibly, so a value above `i64::MAX = 2^63 - 1` fails the bind
and the function's `.unwrap()` panics.  `none` models that panic. -/
def load_feed_from_db (s : DbState) (limit offset : Nat) : Option (List DbPost) :=
  if limit < 2 ^ 63 ∧ offset < 2 ^ 63 then
    some (((sortByTimestampDesc (s.posts.filter fun p => p.deleted = false)).drop
      offset).take limit)
  else none

/-- src/db.rs `get_posts_count`: `SELECT COUNT(uri) FROM posts`.  `uri`
is never null, so this counts every row of the table, deleted rows
included. -/
def get_posts_count (s : DbState) : Nat := s.posts.length

/-- src/db.rs `delete_post` (the admin binary's delete path): `DELETE
FROM likes WHERE post_uri = ?1` then `DELETE FROM posts WHERE uri = ?1`. -/
def delete_post (s : DbState) (uri : String) : DbState :=
  { posts := s.posts.filter fun p => p.uri ≠ uri,
    likes := s.likes.filter fun l => l.1 ≠ uri }

/-- src/bin/feed.rs `MyFeedHandler::insert_post` / `like_post` storage
step: `INSERT OR REPLACE INTO posts (uri, text, pinned, deleted,
priority, timestamp) VALUES (?1, ?2, 0, 0, ?3, ?4)`.  `INSERT OR
REPLACE` drops any row with the same primary key and appends the new
row. -/
def insert_or_replace_post (s : DbState) (uri text : String)
    (priority timestamp : Int) : DbState :=
  { s with posts := (s.posts.filter fun p => p.uri ≠ uri) ++
      [⟨uri, text, false, false, priority, timestamp⟩] }

/-- src/bin/feed.rs `MyFeedHandler::delete_post` (the upstream delete
event): `DELETE FROM posts WHERE uri = ?1` only.  The schema's `ON
DELETE CASCADE` never fires because the connection does not enable
SQLite foreign-key enforcement, so `likes` is untouched. -/
def MyFeedHandler.delete_post (s : DbState) (uri : String) : DbState :=
  { s with posts := s.posts.filter fun p => p.uri ≠ uri }

/-- src/bin/feed.rs `MyFeedHandler::like_post` storage step: `INSERT
INTO likes (post_uri, like_uri) SELECT ?1, ?2 WHERE EXISTS (SELECT 1
FROM posts WHERE uri = ?1)`.  When the selected pair collides with the
composite primary key of `likes`, SQLite raises a constraint violation,
which the handler surfaces (and `.unwrap()`s). -/
def add_like (s : DbState) (post_uri like_uri : String) : Except String DbState :=
  if s.posts.any fun p => p.uri = post_uri then
    if s.likes.contains (post_uri, like_uri) then
      Except.error "UNIQUE constraint failed: likes.post_uri, likes.like_uri"
    else Except.ok { s with likes := s.likes ++ [(post_uri, like_uri)] }
  else Except.ok s

/-- src/bin/feed.rs `MyFeedHandler::delete_like`: `DELETE FROM likes
WHERE like_uri = ?1`. -/
def delete_like (s : DbState) (like_uri : String) : DbState :=
  { s with likes := s.likes.filter fun l => l.2 ≠ like_uri }

/-- src/bin/feed.rs `cleanup_posts`: `DELETE FROM posts WHERE uri NOT IN
(SELECT uri FROM posts ORDER BY timestamp DESC LIMIT 10000)`.  Rows
whose uri is among the 10000 most recent are kept in table order; likes
are not touched. -/
def MAX_POSTS : Nat := 10000

/-- The retained-uri set of one `cleanup_posts` run. -/
def cleanupKeep (s : DbState) : List String :=
  ((sortByTimestampDesc s.posts).take MAX_POSTS).map fun p => p.uri

/-- src/bin/feed.rs `cleanup_posts` as a state transformation. -/
def cleanup_posts (s : DbState) : DbState :=
  { s with posts := s.posts.filter fun p => (cleanupKeep s).contains p.uri }

/-- Rust `usize::from_str` as used on the cursor: an optional leading
`+`, then one or more ASCII digits, rejecting values above
`usize::MAX = 2^64 - 1`. -/
def parse_usize (s : String) : Option Nat :=
  let cs := match s.toList with
    | '+' :: rest => rest
    | cs => cs
  if cs = [] then none
  else if cs.all Char.isDigit then
    let v := cs.foldl (fun acc c => acc * 10 + (c.toNat - 48)) 0
    if v < 2 ^ 64 then some v else none
  else none

/-- skyfeed's `FeedResult`: the page of post uris and the continuation
cursor. -/
structure FeedResult where
  cursor : Option String
  feed : List String
deriving DecidableEq

/-- src/bin/feed.rs `MyFeedHandler::serve_feed`.  `posts_per_page` is
the `u8` produced from `request.limit` (0 when absent); `start_index`
is the parsed cursor, defaulting to 0.  The handler first awaits
`load_feed_from_db`, whose internal `.unwrap()` panics when a bound
parameter exceeds `i64::MAX`, so no response is produced then (`none`).
The next-cursor arithmetic is `u64` addition, which wraps modulo `2^64`
in general; on every path that returns a page both bound parameters are
below `2^63`, so the sum never actually wraps. -/
def serve_feed (s : DbState) (posts_per_page : Nat) (cursor : Option String) :
    Option FeedResult :=
  let start_index := (cursor.bind parse_usize).getD 0
  match load_feed_from_db s posts_per_page start_index with
  | none => none
  | some rows =>
    let posts := rows.map fun p => p.uri
    let total_posts := get_posts_count s
    let nextVal := (start_index + posts_per_page) % 2 ^ 64
    let next_cursor := if nextVal < total_posts then some (toString nextVal) else none
    some { cursor := next_cursor, feed := posts }

/-- The mutating operations the two binaries ever run against the
database, for reachable-state reasoning. -/
inductive Op where
  | insert (uri text : String) (priority timestamp : Int)
  | deleteFeed (uri : String)
  | deleteAdmin (uri : String)
  | like (post_uri like_uri : String)
  | unlike (like_uri : String)
  | cleanup

/-- Apply one operation; a failing `add_like` aborts the handler by
panic, leaving the database as it was. -/
def applyOp (s : DbState) : Op → DbState
  | .insert u t pr ts => insert_or_replace_post s u t pr ts
  | .deleteFeed u => MyFeedHandler.delete_post s u
  | .deleteAdmin u => delete_post s u
  | .like p l =>
    match add_like s p l with
    | .ok s2 => s2
    | .error _ => s
  | .unlike l => delete_like s l
  | .cleanup => cleanup_posts s

/-- The freshly initialised database (`initialize_db` creates empty
tables). -/
def initState : DbState := ⟨[], []⟩

/-- The state after a sequence of operations from the initial state. -/
def runOps (ops : List Op) : DbState := ops.foldl applyOp initState

/-- `load_feed_from_db` with its `deleted = 0` filter removed (same
fallible parameter binding), for stating that the filter never excludes
a row. -/
def load_feed_unfiltered (s : DbState) (limit offset : Nat) : Option (List DbPost) :=
  if limit < 2 ^ 63 ∧ offset < 2 ^ 63 then
    some (((sortByTimestampDesc s.posts).drop offset).take limit)
  else none

/-- A detector instance that flags exactly the string "badword",
standing in for the external profanity detector on inputs where only
that fragment is flagged. -/
def censorOnlyBadword : String → Bool := fun s => s == "badword"

/-- A store holding one non-deleted post and one like referencing it. -/
def c2State : DbState :=
  ⟨[⟨"at://post/1", "hello", false, false, 0, 100⟩],
   [("at://post/1", "at://like/1")]⟩

/-- A store holding one post and an already-present like pair. -/
def c3State : DbState :=
  ⟨[⟨"at://post/1", "hello", false, false, 0, 100⟩],
   [("at://post/1", "at://like/1")]⟩

/-- A store holding a single deleted-flagged post row. -/
def c6State : DbState := ⟨[⟨"at://post/1", "hello", false, true, 0, 100⟩], []⟩

/-- Invariant: no post row carries the deleted flag. -/
def PostsInv (s : DbState) : Prop := ∀ p ∈ s.posts, p.deleted = false

/-- Once the classifier loop has returned `some`, no later fragment is
ever examined: appending fragments after an accepting run leaves the
result unchanged. -/
theorem classifyGo_append_some (censor : String → Bool) :
    ∀ (xs ys : List TextInPost) (b s t : Bool) (sc : Int) (r : PostScoring),
      classifyGo censor xs b s t sc = some r →
      classifyGo censor (xs ++ ys) b s t sc = some r := by
  intro xs
  induction xs with
  | nil => intro ys b s t sc r h; simp [classifyGo] at h
  | cons x xs ih =>
    intro ys b s t sc r h
    by_cases hcx : censor x.toString = true
    · simp [classifyGo, hcx] at h
    · by_cases hdx : fragDeny x = true
      · simp [classifyGo, hcx, hdx] at h
      · simp only [classifyGo] at h ⊢
        rw [if_neg hcx, if_neg hdx] at h ⊢
        by_cases hacc : ((t || fragProg x) && (s || fragBlog x)) = true
        · rw [if_pos hacc] at h ⊢; exact h
        · rw [if_neg hacc] at h ⊢
          simpa using ih _ _ _ _ _ _ h

/-- If the loop rejects or exhausts a prefix `xs` and the next fragment
`y` is flagged by the detector, the whole run returns `none`. -/
theorem classifyGo_censored_mid (censor : String → Bool) (y : TextInPost)
    (ys : List TextInPost) (hc : censor y.toString = true) :
    ∀ (xs : List TextInPost) (b s t : Bool) (sc : Int),
      classifyGo censor xs b s t sc = none →
      classifyGo censor (xs ++ y :: ys) b s t sc = none := by
  intro xs
  induction xs with
  | nil =>
    intro b s t sc _
    simp [classifyGo, hc]
  | cons x xs ih =>
    intro b s t sc h
    by_cases hcx : censor x.toString = true
    · simp [classifyGo, hcx]
    · by_cases hdx : fragDeny x = true
      · simp [classifyGo, hcx, hdx]
      · simp only [classifyGo, Bool.not_eq_true] at h ⊢
        rw [if_neg hcx, if_neg hdx] at h ⊢
        by_cases hacc : ((t || fragProg x) && (s || fragBlog x)) = true
        · rw [if_pos hacc] at h
          exact absurd h (by simp)
        · rw [if_neg hacc] at h ⊢
          simpa using ih _ _ _ _ h

/-- On a run with no censored and no denylisted fragment, the loop
accepts exactly when a topic match and a narrative-form match both
occur (relative to the flags it starts from). -/
theorem classifyGo_isSome_of_safe (censor : String → Bool) :
    ∀ (frags : List TextInPost) (b s t : Bool) (sc : Int),
      (∀ x ∈ frags, censor x.toString = false ∧ fragDeny x = false) →
      (t && s) = false →
      (classifyGo censor frags b s t sc).isSome
        = ((t || frags.any fragProg) && (s || frags.any fragBlog)) := by
  intro frags
  induction frags with
  | nil =>
    intro b s t sc _ hts
    simpa [classifyGo] using hts.symm
  | cons x xs ih =>
    intro b s t sc hsafe hts
    obtain ⟨hcx, hdx⟩ := hsafe x (List.mem_cons_self _ _)
    simp only [classifyGo]
    rw [if_neg (by simp [hcx]), if_neg (by simp [hdx])]
    by_cases hacc : ((t || fragProg x) && (s || fragBlog x)) = true
    · rw [if_pos hacc]
      simp only [Option.isSome_some, List.any_cons]
      rw [Bool.and_eq_true] at hacc
      simp [← Bool.or_assoc, hacc.1, hacc.2]
    · rw [if_neg hacc]
      rw [ih _ _ _ _ (fun x hx => hsafe x (List.mem_cons_of_mem _ hx))
        (by simpa using hacc)]
      simp [List.any_cons, Bool.or_assoc]

/-- C1 counterexample: the first fragment "rust blog" establishes both
the topic and the narrative-form match, so the classifier accepts with
priority 40 and never inspects the second fragment, even though the
detector flags that second fragment as unsafe.  The claim, which
requires `None` whenever any fragment of the sequence is flagged,
fails at this input. -/
theorem C1_counterexample :
    censorOnlyBadword (TextInPost.Post "badword").toString = true
    ∧ does_the_post_belong_to_the_feed censorOnlyBadword
        [TextInPost.Post "rust blog", TextInPost.Post "badword"]
        = some ⟨false, false, 40⟩ := by
  constructor
  · rfl
  · rfl

/-- C1 amended: if a fragment is flagged unsafe by the detector and the
fragments before it do not already make the classifier accept (their
run returns `None`), then the whole sequence is classified `None`,
whatever fragments follow the unsafe one. -/
theorem C1_amended (censor : String → Bool) (xs ys : List TextInPost)
    (y : TextInPost) (hc : censor y.toString = true)
    (hpre : does_the_post_belong_to_the_feed censor xs = none) :
    does_the_post_belong_to_the_feed censor (xs ++ y :: ys) = none :=
  classifyGo_censored_mid censor y ys hc xs false false false 0 hpre

theorem C1_amended_witness :
    censorOnlyBadword (TextInPost.Post "badword").toString = true
    ∧ does_the_post_belong_to_the_feed censorOnlyBadword
        [TextInPost.Post "rust", TextInPost.Post "badword"] = none :=
  ⟨by rfl, C1_amended censorOnlyBadword [TextInPost.Post "rust"] []
    (TextInPost.Post "badword") (by rfl) (by rfl)⟩

/-- C4: for a fragment sequence with no unsafe and no denylisted
fragment, `does_the_post_belong_to_the_feed` returns `Some` exactly
when some prefix of the sequence contains both a `PROGRAMMER_JARGON`
match and a `BLOG_JARGON` match; moreover, once a run accepts, any
fragments appended after it are never scored and cannot change the
result. -/
theorem C4_classify_iff (censor : String → Bool) (frags : List TextInPost)
    (hsafe : ∀ x ∈ frags, censor x.toString = false ∧ fragDeny x = false) :
    ((does_the_post_belong_to_the_feed censor frags).isSome = true
      ↔ ∃ n, ((frags.take n).any fragProg = true)
          ∧ ((frags.take n).any fragBlog = true))
    ∧ (∀ (r : PostScoring) (more : List TextInPost),
        does_the_post_belong_to_the_feed censor frags = some r →
        does_the_post_belong_to_the_feed censor (frags ++ more) = some r) := by
  constructor
  · rw [does_the_post_belong_to_the_feed,
      classifyGo_isSome_of_safe censor frags false false false 0 hsafe rfl]
    simp only [Bool.false_or, Bool.and_eq_true]
    constructor
    · rintro ⟨hp, hb⟩
      refine ⟨frags.length, ?_, ?_⟩ <;> rw [List.take_length]
      · exact hp
      · exact hb
    · rintro ⟨n, hp, hb⟩
      rw [List.any_eq_true] at hp hb ⊢
      obtain ⟨a, ha, hpa⟩ := hp
      obtain ⟨c, hc2, hbc⟩ := hb
      constructor
      · exact ⟨a, List.take_subset n frags ha, hpa⟩
      · rw [List.any_eq_true]
        exact ⟨c, List.take_subset n frags hc2, hbc⟩
  · intro r more h
    exact classifyGo_append_some censor frags more false false false 0 r h

theorem C4_classify_iff_witness :
    ((does_the_post_belong_to_the_feed (fun _ => false)
        [TextInPost.Post "rust blog"]).isSome = true
      ↔ ∃ n, (([TextInPost.Post "rust blog"].take n).any fragProg = true)
          ∧ (([TextInPost.Post "rust blog"].take n).any fragBlog = true))
    ∧ (∀ (r : PostScoring) (more : List TextInPost),
        does_the_post_belong_to_the_feed (fun _ => false)
          [TextInPost.Post "rust blog"] = some r →
        does_the_post_belong_to_the_feed (fun _ => false)
          ([TextInPost.Post "rust blog"] ++ more) = some r) :=
  C4_classify_iff (fun _ => false) [TextInPost.Post "rust blog"]
    (by intro x hx; simp at hx; subst hx; exact ⟨rfl, by rfl⟩)

/-- C8: for any detector not flagging these two strings (the real
detector flags neither), the classifier maps the single body fragment
"just a random rust mention" to `none` (topic match, no narrative-form
match) and the single body fragment "Here's a deep dive tutorial on
Rust embedded dev" to priority 40 (topic +10, form +30), with pinned
and deleted false. -/
theorem C8_examples (censor : String → Bool)
    (h1 : censor "just a random rust mention" = false)
    (h2 : censor "Here\x27s a deep dive tutorial on Rust embedded dev" = false) :
    does_the_post_belong_to_the_feed censor
        [TextInPost.Post "just a random rust mention"] = none
    ∧ does_the_post_belong_to_the_feed censor
        [TextInPost.Post "Here\x27s a deep dive tutorial on Rust embedded dev"]
        = some ⟨false, false, 40⟩ := by
  have hd1 : fragDeny (TextInPost.Post "just a random rust mention") = false := by
    rfl
  have hp1 : fragProg (TextInPost.Post "just a random rust mention") = true := by
    rfl
  have hb1 : fragBlog (TextInPost.Post "just a random rust mention") = false := by
    rfl
  have hd2 : fragDeny (TextInPost.Post
      "Here\x27s a deep dive tutorial on Rust embedded dev") = false := by rfl
  have hp2 : fragProg (TextInPost.Post
      "Here\x27s a deep dive tutorial on Rust embedded dev") = true := by rfl
  have hb2 : fragBlog (TextInPost.Post
      "Here\x27s a deep dive tutorial on Rust embedded dev") = true := by rfl
  constructor
  · simp [does_the_post_belong_to_the_feed, classifyGo, TextInPost.toString,
      h1, hd1, hp1, hb1]
  · simp [does_the_post_belong_to_the_feed, classifyGo, TextInPost.toString,
      h2, hd2, hp2, hb2, progWeight, blogWeight]

theorem C8_examples_witness :
    does_the_post_belong_to_the_feed (fun _ => false)
        [TextInPost.Post "just a random rust mention"] = none
    ∧ does_the_post_belong_to_the_feed (fun _ => false)
        [TextInPost.Post "Here\x27s a deep dive tutorial on Rust embedded dev"]
        = some ⟨false, false, 40⟩ :=
  C8_examples (fun _ => false) rfl rfl

/-- C2: evaluation at the failing input.  The upstream delete handler
(`MyFeedHandler::delete_post`, which runs only `DELETE FROM posts WHERE
uri = ?1`; the schema's `ON DELETE CASCADE` is inert because foreign-key
enforcement is never enabled on the connection) removes the post row but
leaves the like referencing the deleted uri in the likes table; deleting
an absent uri is a no-op. -/
theorem C2_delete_leaves_like :
    MyFeedHandler.delete_post c2State "at://post/1"
      = ⟨[], [("at://post/1", "at://like/1")]⟩
    ∧ MyFeedHandler.delete_post c2State "at://absent" = c2State := by
  constructor
  · decide
  · decide

/-- C3 counterexample: with the pair already present in the likes table
(and the post present), `add_like` raises a uniqueness-constraint error
rather than succeeding silently, so re-invoking it is not failure-free. -/
theorem C3_counterexample :
    ("at://post/1", "at://like/1") ∈ c3State.likes
    ∧ add_like c3State "at://post/1" "at://like/1"
        = Except.error "UNIQUE constraint failed: likes.post_uri, likes.like_uri" := by
  constructor
  · decide
  · rfl

/-- C3 amended: when `post_uri` has a Post record and the pair
(post_uri, like_uri) is already in the Likes table, `add_like` leaves
the table unchanged but fails with a UNIQUE-constraint error (which the
calling handler unwraps into a panic); it is not an error-free no-op. -/
theorem C3_amended (s : DbState) (post_uri like_uri : String)
    (hpost : (s.posts.any fun p => p.uri = post_uri) = true)
    (hdup : (post_uri, like_uri) ∈ s.likes) :
    add_like s post_uri like_uri
      = Except.error "UNIQUE constraint failed: likes.post_uri, likes.like_uri" := by
  rw [add_like, if_pos hpost, if_pos (List.elem_iff.mpr hdup)]

theorem C3_amended_witness :
    add_like c3State "at://post/1" "at://like/1"
      = Except.error "UNIQUE constraint failed: likes.post_uri, likes.like_uri" :=
  C3_amended c3State "at://post/1" "at://like/1" (by decide) (by decide)

/-- C6 counterexample: on a store holding one deleted-flagged row,
`get_posts_count` (which runs `SELECT COUNT(uri) FROM posts` with no
deleted filter) returns 1 while the number of non-deleted posts is 0. -/
theorem C6_counterexample :
    ¬ get_posts_count c6State
        = (c6State.posts.filter fun p => p.deleted = false).length := by
  decide

/-- C6 amended: `get_posts_count` counts every row of the posts table,
deleted rows included; on stores whose rows all have the deleted flag
clear (every reachable store state, by C10) this equals the number of
non-deleted posts. -/
theorem C6_amended (s : DbState) (h : ∀ p ∈ s.posts, p.deleted = false) :
    get_posts_count s = (s.posts.filter fun p => p.deleted = false).length := by
  rw [get_posts_count, List.filter_eq_self.mpr]
  intro p hp
  simpa using h p hp

theorem C6_amended_witness :
    get_posts_count c2State
      = (c2State.posts.filter fun p => p.deleted = false).length :=
  C6_amended c2State (by decide)

/-- C9: a cursor string that does not parse as a number is treated as
offset 0, so serving with it is identical to serving with no cursor at
all; no error is raised. -/
theorem C9_bad_cursor (s : DbState) (limit : Nat) (c : String)
    (hc : parse_usize c = none) :
    serve_feed s limit (some c) = serve_feed s limit none := by
  simp [serve_feed, hc]

theorem C9_bad_cursor_witness :
    serve_feed c2State 2 (some "garbage-not-a-number") = serve_feed c2State 2 none :=
  C9_bad_cursor c2State 2 "garbage-not-a-number" (by decide)

/-- C5: whenever a serve call actually returns a page (both bound
parameters fit SQLite's signed 64-bit integers, so the query does not
panic at parameter binding) and no stored row carries the deleted flag
(true of every reachable store state, by C10), the response's
next cursor is present and encodes `offset + returned_count` exactly
when `offset + returned_count < total_count`, and is absent otherwise. -/
theorem C5_next_cursor (s : DbState) (limit : Nat) (cursor : Option String)
    (offset : Nat) (hoff : offset = (cursor.bind parse_usize).getD 0)
    (hclean : ∀ p ∈ s.posts, p.deleted = false)
    (r : FeedResult) (hr : serve_feed s limit cursor = some r) :
    (r.cursor = some (toString (offset + r.feed.length))
      ↔ offset + r.feed.length < get_posts_count s)
    ∧ (r.cursor = none ↔ ¬ offset + r.feed.length < get_posts_count s) := by
  have hstart : (cursor.bind parse_usize).getD 0 = offset := hoff.symm
  have hfilter : (s.posts.filter fun p => p.deleted = false) = s.posts :=
    List.filter_eq_self.mpr (fun p hp => by simpa using hclean p hp)
  have hsortlen : (sortByTimestampDesc s.posts).length = s.posts.length :=
    (List.perm_insertionSort _ _).length_eq
  by_cases hbound : limit < 2 ^ 63 ∧ offset < 2 ^ 63
  · obtain ⟨hb1, hb2⟩ := hbound
    have hload : load_feed_from_db s limit offset
        = some (((sortByTimestampDesc (s.posts.filter fun p =>
            p.deleted = false)).drop offset).take limit) := by
      rw [load_feed_from_db, if_pos ⟨hb1, hb2⟩]
    have hpow : (2 : Nat) ^ 63 + 2 ^ 63 = 2 ^ 64 := by norm_num
    have hnowrap : offset + limit < 2 ^ 64 := by omega
    simp only [serve_feed, hstart, hload, Option.some.injEq] at hr
    have hc : r.cursor
        = if (offset + limit) % 2 ^ 64 < get_posts_count s
          then some (toString ((offset + limit) % 2 ^ 64)) else none := by
      rw [← hr]
    have hf : r.feed.length = min limit (s.posts.length - offset) := by
      rw [← hr]
      show ((((sortByTimestampDesc (s.posts.filter fun p => p.deleted = false)).drop
        offset).take limit).map fun p => p.uri).length = _
      rw [hfilter, List.length_map, List.length_take, List.length_drop, hsortlen]
    rw [hc, hf, Nat.mod_eq_of_lt hnowrap, get_posts_count]
    rcases Nat.lt_or_ge (offset + limit) s.posts.length with hlt | hge
    · have hmin : min limit (s.posts.length - offset) = limit :=
        Nat.min_eq_left (by omega)
      rw [if_pos hlt, hmin]
      exact ⟨⟨fun _ => hlt, fun _ => rfl⟩,
        ⟨fun h => by simp at h, fun h => absurd hlt h⟩⟩
    · have hnot : ¬ offset + min limit (s.posts.length - offset) < s.posts.length := by
        rcases Nat.le_total limit (s.posts.length - offset) with h | h
        · rw [Nat.min_eq_left h]; omega
        · rw [Nat.min_eq_right h]; omega
      rw [if_neg (by omega)]
      exact ⟨⟨fun h => by simp at h, fun h => absurd h hnot⟩,
        ⟨fun _ => hnot, fun _ => rfl⟩⟩
  · have hload : load_feed_from_db s limit offset = none := by
      rw [load_feed_from_db, if_neg hbound]
    simp only [serve_feed, hstart, hload] at hr
    exact absurd hr (by simp)

theorem C5_next_cursor_witness :
    ((FeedResult.mk none ["at://post/1"]).cursor
        = some (toString (0 + (FeedResult.mk none ["at://post/1"]).feed.length))
      ↔ 0 + (FeedResult.mk none ["at://post/1"]).feed.length
          < get_posts_count c2State)
    ∧ ((FeedResult.mk none ["at://post/1"]).cursor = none
      ↔ ¬ 0 + (FeedResult.mk none ["at://post/1"]).feed.length
          < get_posts_count c2State) :=
  C5_next_cursor c2State 2 none 0 rfl (by decide)
    (FeedResult.mk none ["at://post/1"]) (by decide)

/-- C7: one run of `cleanup_posts` on a store whose post uris are
distinct (uri is the primary key) retains at most `MAX_POSTS = 10000`
rows, and the retained rows are, as a multiset, exactly the first
`MAX_POSTS` of the posts sorted by timestamp descending (stable, hence
deterministic, tie-break); timestamps alone decide retention, priority
plays no part. -/
theorem C7_cleanup_retains_most_recent (s : DbState)
    (hnodup : (s.posts.map fun p => p.uri).Nodup) :
    get_posts_count (cleanup_posts s) ≤ MAX_POSTS
    ∧ (cleanup_posts s).posts.Perm
        ((sortByTimestampDesc s.posts).take MAX_POSTS) := by
  have hperm : s.posts.Perm (sortByTimestampDesc s.posts) :=
    (List.perm_insertionSort _ _).symm
  have hnodup2 : ((sortByTimestampDesc s.posts).map fun p => p.uri).Nodup :=
    (hperm.map _).nodup_iff.mp hnodup
  have hsplitmap : ((sortByTimestampDesc s.posts).map fun p => p.uri)
      = ((sortByTimestampDesc s.posts).take MAX_POSTS).map (fun p => p.uri)
        ++ ((sortByTimestampDesc s.posts).drop MAX_POSTS).map (fun p => p.uri) := by
    rw [← List.map_append, List.take_append_drop]
  have hdisj := (List.nodup_append.mp (hsplitmap ▸ hnodup2)).2.2
  have hkeep : ∀ p ∈ (sortByTimestampDesc s.posts).take MAX_POSTS,
      ((cleanupKeep s).contains p.uri) = true := by
    intro p hp
    exact List.elem_iff.mpr (List.mem_map_of_mem _ hp)
  have hdropnot : ∀ p ∈ (sortByTimestampDesc s.posts).drop MAX_POSTS,
      ((cleanupKeep s).contains p.uri) = false := by
    intro p hp
    have hmem : p.uri ∈ ((sortByTimestampDesc s.posts).drop MAX_POSTS).map
        (fun p => p.uri) := List.mem_map_of_mem _ hp
    refine Bool.eq_false_iff.mpr (fun hc => ?_)
    have hin : p.uri ∈ (cleanupKeep s) := List.elem_iff.mp hc
    rw [cleanupKeep] at hin
    exact hdisj hin hmem
  have h1 : (sortByTimestampDesc s.posts).filter
        (fun p => (cleanupKeep s).contains p.uri)
      = ((sortByTimestampDesc s.posts).take MAX_POSTS).filter
          (fun p => (cleanupKeep s).contains p.uri)
        ++ ((sortByTimestampDesc s.posts).drop MAX_POSTS).filter
          (fun p => (cleanupKeep s).contains p.uri) := by
    rw [← List.filter_append, List.take_append_drop]
  have h2 : ((sortByTimestampDesc s.posts).take MAX_POSTS).filter
        (fun p => (cleanupKeep s).contains p.uri)
      = (sortByTimestampDesc s.posts).take MAX_POSTS :=
    List.filter_eq_self.mpr hkeep
  have h3 : ((sortByTimestampDesc s.posts).drop MAX_POSTS).filter
        (fun p => (cleanupKeep s).contains p.uri) = [] :=
    List.filter_eq_nil_iff.mpr (fun p hp => by rw [hdropnot p hp]; simp)
  have hpermfinal : (cleanup_posts s).posts.Perm
      ((sortByTimestampDesc s.posts).take MAX_POSTS) := by
    rw [cleanup_posts]
    exact (hperm.filter _).trans (by rw [h1, h2, h3, List.append_nil])
  refine ⟨?_, hpermfinal⟩
  rw [get_posts_count, hpermfinal.length_eq]
  exact List.length_take_le _ _

theorem C7_cleanup_witness :
    get_posts_count (cleanup_posts c2State) ≤ MAX_POSTS
    ∧ (cleanup_posts c2State).posts.Perm
        ((sortByTimestampDesc c2State.posts).take MAX_POSTS) :=
  C7_cleanup_retains_most_recent c2State (by decide)

/-- Every single operation preserves the invariant that no post row
carries the deleted flag: insertion writes `deleted = 0`, both delete
paths and eviction remove whole rows, and the like operations do not
touch the posts table. -/
theorem applyOp_posts_inv (s : DbState) (o : Op) (h : PostsInv s) :
    PostsInv (applyOp s o) := by
  cases o with
  | insert u t pr ts =>
    intro p hp
    rw [applyOp, insert_or_replace_post] at hp
    simp only [List.mem_append, List.mem_filter, List.mem_singleton] at hp
    rcases hp with ⟨hp, _⟩ | hp
    · exact h p hp
    · simp [hp]
  | deleteFeed u =>
    intro p hp
    rw [applyOp, MyFeedHandler.delete_post] at hp
    simp only [List.mem_filter] at hp
    exact h p hp.1
  | deleteAdmin u =>
    intro p hp
    rw [applyOp, delete_post] at hp
    simp only [List.mem_filter] at hp
    exact h p hp.1
  | like pu lu =>
    suffices hposts : (applyOp s (Op.like pu lu)).posts = s.posts by
      intro p hp
      rw [hposts] at hp
      exact h p hp
    rw [applyOp]
    rcases hadd : add_like s pu lu with e | s2
    · rfl
    · show s2.posts = s.posts
      rw [add_like] at hadd
      split at hadd
      · split at hadd
        · exact absurd hadd (by simp)
        · injection hadd with h2
          rw [← h2]
      · injection hadd with h2
        rw [← h2]
  | unlike lu =>
    intro p hp
    rw [applyOp, delete_like] at hp
    exact h p hp
  | cleanup =>
    intro p hp
    rw [applyOp, cleanup_posts] at hp
    simp only [List.mem_filter] at hp
    exact h p hp.1

/-- The invariant is preserved along any operation sequence. -/
theorem foldl_posts_inv (ops : List Op) :
    ∀ s : DbState, PostsInv s → PostsInv (ops.foldl applyOp s) := by
  induction ops with
  | nil => intro s h; exact h
  | cons o ops ih =>
    intro s h
    exact ih _ (applyOp_posts_inv s o h)

/-- C10: in every state reachable from the empty database by the
system's operations, every row of the posts table has `deleted = false`,
and consequently the `deleted = 0` filter of the serving query never
excludes a row: `load_feed_from_db` coincides with the same query
without the filter. -/
theorem C10_no_deleted_rows (ops : List Op) (limit offset : Nat) :
    (∀ p ∈ (runOps ops).posts, p.deleted = false)
    ∧ load_feed_from_db (runOps ops) limit offset
        = load_feed_unfiltered (runOps ops) limit offset := by
  have hinv : PostsInv (runOps ops) :=
    foldl_posts_inv ops initState (by intro p hp; simp [initState] at hp)
  refine ⟨hinv, ?_⟩
  rw [load_feed_from_db, load_feed_unfiltered, List.filter_eq_self.mpr]
  intro p hp
  simpa using hinv p hp
